import Mathlib

/-!
Verification of the dr-manhattan-rust trading client core against its
natural-language specification.  The Rust sources are shallowly embedded:
pure fragments become Lean functions over exact rationals and naturals,
`f64 as u64` casts become saturating floors, `u128 as u64` casts become
reduction modulo 2^64, and stateful or concurrent code becomes explicit
state passing or a labelled step relation.
-/

/-- Order side shared by the venue CLOB clients
(`LimitlessSide`, `ClobOrderSide`). -/
inductive Side where
  | buy : Side
  | sell : Side
deriving DecidableEq, Repr

/-- Rust cast of a non-NaN f64 to u64: truncation toward zero, saturating at
0 below and at 2^64 - 1 above.  The f64 value itself is modelled as an exact
rational. -/
def f64AsU64 (q : ℚ) : ℕ := min (Int.toNat ⌊q⌋) (2 ^ 64 - 1)

/-- Rust cast of a u128 value to u64: truncation modulo 2^64. -/
def u128AsU64 (n : ℕ) : ℕ := n % 2 ^ 64

/-- Scale factor for share amounts in the Limitless CLOB client
(`shares_scale` in build_signed_order). -/
def sharesScale : ℕ := 1000000

/-- Scale factor for collateral in the Limitless CLOB client. -/
def collateralScale : ℕ := 1000000

/-- Scale factor for prices in the Limitless CLOB client. -/
def priceScale : ℕ := 1000000

/-- Minimum price tick in the Limitless CLOB client (0.001 * 1e6). -/
def priceTick : ℕ := 1000

/-- Amount computation of LimitlessClobClient::build_signed_order
(src/drm-exchange-limitless/src/clob.rs, lines 306-335): scale size and
price to integers, align shares down to the tick step, then compute the
maker and taker legs with round-up division for Buy and round-down
division for Sell, in u128 intermediate width narrowed to u64. -/
def limitlessBuildAmounts (price size : ℚ) (side : Side) : ℕ × ℕ :=
  let shares := f64AsU64 (size * (sharesScale : ℚ))
  let priceInt := f64AsU64 (price * (priceScale : ℚ))
  let sharesStep := priceScale / priceTick
  let shares := shares / sharesStep * sharesStep
  let numerator := shares * priceInt * collateralScale
  let denominator := sharesScale * priceScale
  match side with
  | Side.buy => (u128AsU64 ((numerator + denominator - 1) / denominator), shares)
  | Side.sell => (shares, u128AsU64 (numerator / denominator))

/-- Amount computation of ClobClient::create_order
(src/drm-exchange-polymarket/src/clob.rs, lines 193-207): both legs are
computed directly in f64 and truncated, with no tick alignment and no
directed rounding. -/
def polymarketCreateOrderAmounts (price size : ℚ) (side : Side) : ℕ × ℕ :=
  let scale : ℕ := 10 ^ 6
  match side with
  | Side.buy =>
      let usdcAmount := f64AsU64 (size * price * (scale : ℚ))
      let shares := f64AsU64 (size * (scale : ℚ))
      (usdcAmount, shares)
  | Side.sell =>
      let shares := f64AsU64 (size * (scale : ℚ))
      let usdcAmount := f64AsU64 (size * price * (scale : ℚ))
      (shares, usdcAmount)

/-- Shares value used by build_signed_order after scaling and tick
alignment, named for use in specification statements. -/
def limitlessShares (size : ℚ) : ℕ :=
  f64AsU64 (size * (sharesScale : ℚ)) / (priceScale / priceTick) * (priceScale / priceTick)

/-- Integer price used by build_signed_order after scaling. -/
def limitlessPriceInt (price : ℚ) : ℕ := f64AsU64 (price * (priceScale : ℚ))

/-- Token-id validity is the only input validation performed by
LimitlessClobClient::build_signed_order: the function signs and returns an
order for every price and size, failing only when the token id does not
parse as a decimal U256 (or when the signing backend fails, which does not
depend on price or size). -/
def limitlessBuildSignedOrder (tokenIdValid : Bool) (price size : ℚ)
    (side : Side) : Option (ℕ × ℕ) :=
  if tokenIdValid then some (limitlessBuildAmounts price size side) else none

/-- ClobClient::create_order likewise validates only the token id; price and
size are never checked. -/
def polymarketCreateOrder (tokenIdValid : Bool) (price size : ℚ)
    (side : Side) : Option (ℕ × ℕ) :=
  if tokenIdValid then some (polymarketCreateOrderAmounts price size side) else none

/-- Round-up natural division (num + den - 1) / den agrees with the rational
ceiling of num / den. -/
lemma natCeilDiv_eq_ceil (num den : ℕ) (hden : 0 < den) :
    (num + den - 1) / den = ⌈(num : ℚ) / (den : ℚ)⌉₊ := by
  have hdenQ : (0 : ℚ) < (den : ℚ) := by exact_mod_cast hden
  rcases Nat.eq_zero_or_pos num with hnum | hnum
  · subst hnum
    simp only [Nat.cast_zero, zero_div, Nat.ceil_zero, Nat.zero_add]
    exact Nat.div_eq_of_lt (by omega)
  · apply le_antisymm
    · have hR : 0 < (num + den - 1) / den := Nat.div_pos (by omega) hden
      have hlt : (num + den - 1) / den - 1 < ⌈(num : ℚ) / (den : ℚ)⌉₊ := by
        rw [Nat.lt_ceil, lt_div_iff₀ hdenQ]
        have h1 : (num + den - 1) / den * den ≤ num + den - 1 :=
          Nat.div_mul_le_self _ _
        have h3 : ((num + den - 1) / den - 1) * den
            = (num + den - 1) / den * den - den := by
          rw [Nat.sub_mul, one_mul]
        have hkey : ((num + den - 1) / den - 1) * den < num := by omega
        exact_mod_cast hkey
      omega
    · rw [Nat.ceil_le, div_le_iff₀ hdenQ]
      have h1 : den * ((num + den - 1) / den) + (num + den - 1) % den
          = num + den - 1 := Nat.div_add_mod _ _
      have h2 : (num + den - 1) % den < den := Nat.mod_lt _ hden
      have hkey : num ≤ den * ((num + den - 1) / den) := by omega
      rw [mul_comm]
      exact_mod_cast hkey

/-- Round-down natural division agrees with the rational floor. -/
lemma natDiv_eq_floor (num den : ℕ) :
    num / den = ⌊(num : ℚ) / (den : ℚ)⌋₊ := by
  rw [Nat.floor_div_nat, Nat.floor_natCast]

/-- Evaluation rule for the f64-to-u64 cast when the rational lies in the
interval of a small natural number. -/
lemma f64AsU64_eval {q : ℚ} {n : ℕ} (h1 : (n : ℚ) ≤ q) (h2 : q < n + 1)
    (h3 : n < 2 ^ 64) : f64AsU64 q = n := by
  have hfloor : ⌊q⌋ = (n : ℤ) := by
    rw [Int.floor_eq_iff]
    exact ⟨by exact_mod_cast h1, by exact_mod_cast h2⟩
  rw [f64AsU64, hfloor, Int.toNat_natCast]
  omega

lemma limitlessShares_le (size : ℚ) : limitlessShares size ≤ 2 ^ 64 - 1 :=
  le_trans (Nat.div_mul_le_self _ _) (min_le_right _ _)

lemma limitlessPriceInt_le (price : ℚ) (hp : price < 1) :
    limitlessPriceInt price ≤ 999999 := by
  rw [limitlessPriceInt, f64AsU64]
  have hlt : ⌊price * (priceScale : ℚ)⌋ < 1000000 := by
    rw [Int.floor_lt]
    rw [show ((1000000 : ℤ) : ℚ) = ((priceScale : ℕ) : ℚ) by norm_num [priceScale]]
    have hscale : (0 : ℚ) < (priceScale : ℚ) := by norm_num [priceScale]
    calc price * (priceScale : ℚ) < 1 * (priceScale : ℚ) := by
          exact mul_lt_mul_of_pos_right hp hscale
    _ = (priceScale : ℚ) := one_mul _
  have h2 : Int.toNat ⌊price * (priceScale : ℚ)⌋ ≤ 999999 := by omega
  exact le_trans (min_le_left _ _) h2

lemma limitless_no_wrap {shares priceInt : ℕ} (hs : shares ≤ 2 ^ 64 - 1)
    (hp : priceInt ≤ 999999) :
    (shares * priceInt * collateralScale + sharesScale * priceScale - 1)
      / (sharesScale * priceScale) < 2 ^ 64 := by
  have hden : 0 < sharesScale * priceScale := by norm_num [sharesScale, priceScale]
  rw [Nat.div_lt_iff_lt_mul hden]
  have hnum : shares * priceInt * collateralScale
      ≤ (2 ^ 64 - 1) * 999999 * collateralScale :=
    Nat.mul_le_mul_right _ (Nat.mul_le_mul hs hp)
  have : (2 ^ 64 - 1) * 999999 * collateralScale + sharesScale * priceScale
      ≤ 2 ^ 64 * (sharesScale * priceScale) := by
    norm_num [collateralScale, sharesScale, priceScale]
  omega

/-- C1 (amended, Limitless part): build_signed_order computes the aligned
shares, then Buy makerAmount is the exact rational ceiling of
shares x priceInt x collateralScale / (sharesScale x priceScale) with
takerAmount = shares, and Sell is the mirror image with the floor; the
aligned shares are a multiple of the tick step, and the worked examples of
the specification hold, for Polymarket as well as Limitless. -/
theorem c1_amount_scaling (price size : ℚ) (_hp0 : 0 < price) (hp1 : price < 1)
    (_hs : 0 < size) :
    limitlessBuildAmounts price size Side.buy
      = (⌈((limitlessShares size * limitlessPriceInt price * collateralScale : ℕ) : ℚ)
          / ((sharesScale * priceScale : ℕ) : ℚ)⌉₊, limitlessShares size) ∧
    limitlessBuildAmounts price size Side.sell
      = (limitlessShares size,
         ⌊((limitlessShares size * limitlessPriceInt price * collateralScale : ℕ) : ℚ)
          / ((sharesScale * priceScale : ℕ) : ℚ)⌋₊) ∧
    limitlessShares size % (priceScale / priceTick) = 0 ∧
    limitlessBuildAmounts (65/100) 10 Side.buy = (6500000, 10000000) ∧
    limitlessBuildAmounts (65/100) 10 Side.sell = (10000000, 6500000) ∧
    polymarketCreateOrderAmounts (65/100) 10 Side.buy = (6500000, 10000000) ∧
    polymarketCreateOrderAmounts (65/100) 10 Side.sell = (10000000, 6500000) := by
  have hden : 0 < sharesScale * priceScale := by norm_num [sharesScale, priceScale]
  have hs64 := limitlessShares_le size
  have hp64 := limitlessPriceInt_le price hp1
  have hceil := natCeilDiv_eq_ceil
    (limitlessShares size * limitlessPriceInt price * collateralScale)
    (sharesScale * priceScale) hden
  have hfloor := natDiv_eq_floor
    (limitlessShares size * limitlessPriceInt price * collateralScale)
    (sharesScale * priceScale)
  have hwrapBuy := limitless_no_wrap hs64 hp64
  have hwrapSell : limitlessShares size * limitlessPriceInt price * collateralScale
      / (sharesScale * priceScale) < 2 ^ 64 := by
    refine lt_of_le_of_lt (Nat.div_le_div_right ?_) hwrapBuy
    have : 0 < sharesScale * priceScale := hden
    omega
  have e10 : f64AsU64 ((10 : ℚ) * (sharesScale : ℚ)) = 10000000 :=
    f64AsU64_eval (by norm_num [sharesScale]) (by norm_num [sharesScale]) (by norm_num)
  have e65 : f64AsU64 ((65 : ℚ)/100 * (priceScale : ℚ)) = 650000 :=
    f64AsU64_eval (by norm_num [priceScale]) (by norm_num [priceScale]) (by norm_num)
  have e65s : f64AsU64 ((10 : ℚ) * (65 : ℚ)/100 * (1000000 : ℚ)) = 6500000 :=
    f64AsU64_eval (by norm_num) (by norm_num) (by norm_num)
  refine ⟨?_, ?_, ?_, ?_, ?_, ?_, ?_⟩
  · simp only [limitlessBuildAmounts, limitlessShares, limitlessPriceInt] at *
    rw [u128AsU64, Nat.mod_eq_of_lt hwrapBuy, hceil]
  · simp only [limitlessBuildAmounts, limitlessShares, limitlessPriceInt] at *
    rw [u128AsU64, Nat.mod_eq_of_lt hwrapSell, hfloor]
  · simp only [limitlessShares]
    exact Nat.mul_mod_left _ _
  · simp only [limitlessBuildAmounts, e10, e65]
    norm_num [u128AsU64, sharesScale, collateralScale, priceScale, priceTick]
  · simp only [limitlessBuildAmounts, e10, e65]
    norm_num [u128AsU64, sharesScale, collateralScale, priceScale, priceTick]
  · simp only [polymarketCreateOrderAmounts]
    rw [show (10 : ℚ) * ((65:ℚ)/100) * ((10 ^ 6 : ℕ) : ℚ)
          = (10 : ℚ) * (65 : ℚ)/100 * (1000000 : ℚ) by norm_num] at *
    rw [e65s]
    rw [show (10 : ℚ) * ((10 ^ 6 : ℕ) : ℚ) = (10 : ℚ) * (1000000 : ℚ) by norm_num]
    rw [f64AsU64_eval (n := 10000000) (by norm_num) (by norm_num) (by norm_num)]
  · simp only [polymarketCreateOrderAmounts]
    rw [show (10 : ℚ) * ((65:ℚ)/100) * ((10 ^ 6 : ℕ) : ℚ)
          = (10 : ℚ) * (65 : ℚ)/100 * (1000000 : ℚ) by norm_num] at *
    rw [e65s]
    rw [show (10 : ℚ) * ((10 ^ 6 : ℕ) : ℚ) = (10 : ℚ) * (1000000 : ℚ) by norm_num]
    rw [f64AsU64_eval (n := 10000000) (by norm_num) (by norm_num) (by norm_num)]

/-- Witness for c1_amount_scaling at price 0.65, size 10. -/
theorem c1_amount_scaling_witness :
    limitlessBuildAmounts (65/100) 10 Side.buy = (6500000, 10000000) :=
  (c1_amount_scaling (65/100) 10 (by norm_num) (by norm_num) (by norm_num)).2.2.2.1

/-- C1 counterexample: at Buy price 9/64 = 0.140625, size 1/2, the claimed
formula (tick alignment plus ceiling division) demands makerAmount 70313,
but ClobClient::create_order truncates size x price x scale and returns
70312. -/
theorem c1_counterexample :
    (polymarketCreateOrderAmounts (9/64 : ℚ) (1/2 : ℚ) Side.buy).1 = 70312 ∧
    ⌈((limitlessShares (1/2 : ℚ) * limitlessPriceInt (9/64 : ℚ) * collateralScale : ℕ) : ℚ)
        / ((sharesScale * priceScale : ℕ) : ℚ)⌉₊ = 70313 ∧
    (polymarketCreateOrderAmounts (9/64 : ℚ) (1/2 : ℚ) Side.buy).1 ≠
      ⌈((limitlessShares (1/2 : ℚ) * limitlessPriceInt (9/64 : ℚ) * collateralScale : ℕ) : ℚ)
        / ((sharesScale * priceScale : ℕ) : ℚ)⌉₊ := by
  have hshares : limitlessShares (1/2 : ℚ) = 500000 := by
    rw [limitlessShares,
        f64AsU64_eval (n := 500000) (by norm_num [sharesScale])
          (by norm_num [sharesScale]) (by norm_num)]
    norm_num [priceScale, priceTick]
  have hpi : limitlessPriceInt (9/64 : ℚ) = 140625 := by
    rw [limitlessPriceInt]
    exact f64AsU64_eval (by norm_num [priceScale]) (by norm_num [priceScale]) (by norm_num)
  have hceil : ⌈((limitlessShares (1/2 : ℚ) * limitlessPriceInt (9/64 : ℚ)
        * collateralScale : ℕ) : ℚ) / ((sharesScale * priceScale : ℕ) : ℚ)⌉₊ = 70313 := by
    rw [← natCeilDiv_eq_ceil _ _ (by norm_num [sharesScale, priceScale]), hshares, hpi]
    norm_num [collateralScale, sharesScale, priceScale]
  have hpoly : (polymarketCreateOrderAmounts (9/64 : ℚ) (1/2 : ℚ) Side.buy).1 = 70312 := by
    simp only [polymarketCreateOrderAmounts]
    rw [show (1/2 : ℚ) * ((9:ℚ)/64) * ((10 ^ 6 : ℕ) : ℚ) = (140625 : ℚ)/2 by norm_num]
    rw [f64AsU64_eval (n := 70312) (by norm_num) (by norm_num) (by norm_num)]
  exact ⟨hpoly, hceil, by rw [hpoly, hceil]; omega⟩

/-- C5 counterexample: with a valid token id, build_signed_order returns a
signed order for price 2 (outside the open unit interval), and create_order
returns a signed order for a negative size; neither reports InvalidInput. -/
theorem c5_counterexample :
    (limitlessBuildSignedOrder true 2 10 Side.buy).isSome = true ∧
    (polymarketCreateOrder true (1/2 : ℚ) (-5 : ℚ) Side.sell).isSome = true := by
  constructor <;> rfl

/-- C5 (amended): neither build_signed_order nor create_order validates
price or size; an order is produced exactly when the token id parses,
regardless of price and size. -/
theorem c5_no_price_size_validation (v : Bool) (price size : ℚ) (side : Side) :
    (limitlessBuildSignedOrder v price size side).isSome = v ∧
    (polymarketCreateOrder v price size side).isSome = v := by
  cases v <;> simp [limitlessBuildSignedOrder, polymarketCreateOrder]

/-! Salt generation for signed orders. -/

/-- Salt of LimitlessClobClient::build_signed_order: with timestamp_ms the
current Unix time in milliseconds, salt = timestamp_ms * 1000 +
(timestamp_ms % 1000) + 86400000.  Every term is a function of the
timestamp alone. -/
def limitlessSalt (timestampMs : ℕ) : ℕ :=
  timestampMs * 1000 + timestampMs % 1000 + 86400000

/-- Salt of ClobClient::create_order: salt = timestamp_ms * 1000, again a
function of the timestamp alone. -/
def polymarketSalt (timestampMs : ℕ) : ℕ := timestampMs * 1000

/-- Salt of the PredictFun build_signed_order: timestamp_ms * 10^6 plus a
random u32 reduced modulo 10^6. -/
def predictfunSalt (timestampMs rand : ℕ) : ℕ :=
  timestampMs * 1000000 + rand % 1000000

/-- C6 counterexample: the Limitless and Polymarket salts are fully
determined by the millisecond timestamp, so two orders built in the same
millisecond receive this identical value, and two PredictFun orders in the
same millisecond collide whenever the random draws agree modulo 10^6. -/
theorem c6_counterexample :
    limitlessSalt 1760227200123 = 1760227286523123 ∧
    polymarketSalt 1760227200123 = 1760227200123000 ∧
    predictfunSalt 1760227200123 123456 = predictfunSalt 1760227200123 1123456 := by
  refine ⟨by decide, by decide, by decide⟩

/-- C6 (amended): all three salt derivations are strictly increasing across
distinct milliseconds, so orders built in different milliseconds always get
distinct salts; within one millisecond Limitless and Polymarket salts are
constant and PredictFun salts depend only on the random draw modulo 10^6. -/
theorem c6_salt_across_ms (ms1 ms2 r1 r2 : ℕ) (h : ms1 < ms2) :
    limitlessSalt ms1 < limitlessSalt ms2 ∧
    polymarketSalt ms1 < polymarketSalt ms2 ∧
    predictfunSalt ms1 r1 < predictfunSalt ms2 r2 := by
  unfold limitlessSalt polymarketSalt predictfunSalt
  have h1 : ms1 % 1000 < 1000 := Nat.mod_lt _ (by norm_num)
  have h2 : r1 % 1000000 < 1000000 := Nat.mod_lt _ (by norm_num)
  refine ⟨by omega, by omega, by omega⟩

/-- Witness for c6_salt_across_ms at consecutive milliseconds. -/
theorem c6_salt_across_ms_witness :
    limitlessSalt 1000 < limitlessSalt 1001 :=
  (c6_salt_across_ms 1000 1001 0 7 (by norm_num)).1

/-! EIP-712 typed-data hashing (compute_order_hash / compute_domain_separator
in both CLOB clients).  The keccak256 primitive is an external library call
and is kept as an explicit function parameter; the embedding captures how
the clients assemble its inputs. -/

/-- Big-endian byte sequence of length w representing n (the low w bytes). -/
def beBytes : ℕ → ℕ → List ℕ
  | 0, _ => []
  | w + 1, n => beBytes w (n / 256) ++ [n % 256]

/-- ABI tokens appearing in the order and domain hash payloads; all are
head-only static types. -/
inductive AbiToken where
  | fixedBytes (bytes : List ℕ) : AbiToken
  | uint (value : ℕ) : AbiToken
  | address (value : ℕ) : AbiToken

/-- Right-pad a byte sequence to a 32-byte word. -/
def padTo32 (bytes : List ℕ) : List ℕ :=
  bytes ++ List.replicate (32 - bytes.length) 0

/-- Encoding of one static ABI token as its 32-byte head. -/
def encodeToken : AbiToken → List ℕ
  | AbiToken.fixedBytes b => padTo32 b
  | AbiToken.uint n => beBytes 32 n
  | AbiToken.address a => beBytes 32 a

/-- ethers::abi::encode for a list of static tokens: concatenation of the
32-byte heads. -/
def abiEncode (tokens : List AbiToken) : List ℕ :=
  tokens.foldr (fun t acc => encodeToken t ++ acc) []

/-- EIP712Domain type string hashed by compute_domain_separator. -/
def domainTypeString : String :=
  "EIP712Domain(string name,string version,uint256 chainId,address verifyingContract)"

/-- Order type string hashed by compute_order_hash. -/
def orderTypeString : String :=
  "Order(uint256 salt,address maker,address signer,address taker,uint256 tokenId,uint256 makerAmount,uint256 takerAmount,uint256 expiration,uint256 nonce,uint256 feeRateBps,uint8 side,uint8 signatureType)"

/-- ASCII bytes of a string literal. -/
def asciiBytes (s : String) : List ℕ := s.data.map Char.toNat

/-- Field values of the order struct being hashed (all already narrowed to
unsigned integers by the caller). -/
structure OrderFields where
  salt : ℕ
  maker : ℕ
  signer : ℕ
  taker : ℕ
  tokenId : ℕ
  makerAmount : ℕ
  takerAmount : ℕ
  expiration : ℕ
  nonce : ℕ
  feeRateBps : ℕ
  side : ℕ
  signatureType : ℕ

/-- compute_domain_separator (identical in ClobClient and
LimitlessClobClient up to the name, version, chain id and contract): hash
of the abi-encoded domain type hash, name hash, version hash, chain id and
verifying contract. -/
def computeDomainSeparator (keccak : List ℕ → List ℕ) (name version : String)
    (chainId contract : ℕ) : List ℕ :=
  let domainTypeHash := keccak (asciiBytes domainTypeString)
  let nameHash := keccak (asciiBytes name)
  let versionHash := keccak (asciiBytes version)
  keccak (abiEncode [AbiToken.fixedBytes domainTypeHash, AbiToken.fixedBytes nameHash,
    AbiToken.fixedBytes versionHash, AbiToken.uint chainId, AbiToken.address contract])

/-- compute_order_hash: keccak of 0x19 0x01 followed by the domain
separator and the struct hash of the abi-encoded order fields. -/
def computeOrderHash (keccak : List ℕ → List ℕ) (name version : String)
    (chainId contract : ℕ) (o : OrderFields) : List ℕ :=
  let orderTypeHash := keccak (asciiBytes orderTypeString)
  let domainSeparator := computeDomainSeparator keccak name version chainId contract
  let structHash := keccak (abiEncode [AbiToken.fixedBytes orderTypeHash,
    AbiToken.uint o.salt, AbiToken.address o.maker, AbiToken.address o.signer,
    AbiToken.address o.taker, AbiToken.uint o.tokenId, AbiToken.uint o.makerAmount,
    AbiToken.uint o.takerAmount, AbiToken.uint o.expiration, AbiToken.uint o.nonce,
    AbiToken.uint o.feeRateBps, AbiToken.uint o.side, AbiToken.uint o.signatureType])
  keccak (0x19 :: 0x01 :: (domainSeparator ++ structHash))

/-- C4: for any 32-byte hash primitive, the digest is exactly
keccak(0x1901 concat domainSeparator concat structHash) with the domain
separator and struct hash assembled as the specification states, and the
computation is a pure function: repeated evaluation on identical inputs
yields identical bytes. -/
theorem c4_digest_structure (keccak : List ℕ → List ℕ)
    (hk : ∀ bs, (keccak bs).length = 32) (name version : String)
    (chainId contract : ℕ) (o : OrderFields) :
    computeOrderHash keccak name version chainId contract o
      = keccak (0x19 :: 0x01 ::
          (computeDomainSeparator keccak name version chainId contract
            ++ keccak (keccak (asciiBytes orderTypeString)
              ++ beBytes 32 o.salt ++ beBytes 32 o.maker ++ beBytes 32 o.signer
              ++ beBytes 32 o.taker ++ beBytes 32 o.tokenId
              ++ beBytes 32 o.makerAmount ++ beBytes 32 o.takerAmount
              ++ beBytes 32 o.expiration ++ beBytes 32 o.nonce
              ++ beBytes 32 o.feeRateBps ++ beBytes 32 o.side
              ++ beBytes 32 o.signatureType))) ∧
    computeDomainSeparator keccak name version chainId contract
      = keccak (keccak (asciiBytes domainTypeString) ++ keccak (asciiBytes name)
          ++ keccak (asciiBytes version) ++ beBytes 32 chainId
          ++ beBytes 32 contract) ∧
    computeOrderHash keccak name version chainId contract o
      = computeOrderHash keccak name version chainId contract o := by
  have hpad : ∀ bs, padTo32 (keccak bs) = keccak bs := by
    intro bs
    rw [padTo32, hk]
    simp
  refine ⟨?_, ?_, rfl⟩
  · simp only [computeOrderHash, abiEncode, List.foldr, encodeToken, hpad,
      List.append_nil, List.append_assoc]
  · simp only [computeDomainSeparator, abiEncode, List.foldr, encodeToken, hpad,
      List.append_nil, List.append_assoc]

/-! Order books: price levels, sorting, the Limitless inverted-book
derivation and the web-socket synchronizer updates. -/

/-- Price level of an order book (drm-core PriceLevel), with the f64 fields
modelled as exact rationals. -/
structure PriceLevel where
  price : ℚ
  size : ℚ
deriving DecidableEq, Repr

/-- Rust f64::round: round half away from zero. -/
def rustRound (q : ℚ) : ℤ := if 0 ≤ q then ⌊q + 1/2⌋ else -⌊-q + 1/2⌋

/-- Derived price computed by LimitlessExchange::get_orderbook for a No
token: the source expression (1.0 - a.price * 1000.0).round() / 1000.0
parenthesizes as round(1 - price * 1000) / 1000. -/
def limitlessInvertPrice (p : ℚ) : ℚ := ((rustRound (1 - p * 1000) : ℤ) : ℚ) / 1000

/-- Modelled from the spec: every ask (p, s) on the canonical book becomes
a bid (1-p, s) on the derived book; at the 0.001 tick this is
round((1 - price) * 1000) / 1000. -/
def specInvertPrice (p : ℚ) : ℚ := ((rustRound ((1 - p) * 1000) : ℤ) : ℚ) / 1000

/-- Sort bids by descending price (sort_by with comparator
b.price.partial_cmp(a.price)), modelled as a stable insertion sort. -/
def sortBidsDesc (l : List PriceLevel) : List PriceLevel :=
  l.insertionSort (fun a b => b.price ≤ a.price)

/-- Sort asks by ascending price. -/
def sortAsksAsc (l : List PriceLevel) : List PriceLevel :=
  l.insertionSort (fun a b => a.price ≤ b.price)

instance : IsTotal PriceLevel (fun a b => b.price ≤ a.price) :=
  ⟨fun a b => le_total b.price a.price⟩

instance : IsTrans PriceLevel (fun a b => b.price ≤ a.price) :=
  ⟨fun _ _ _ hab hbc => le_trans hbc hab⟩

instance : IsTotal PriceLevel (fun a b => a.price ≤ b.price) :=
  ⟨fun a b => le_total a.price b.price⟩

instance : IsTrans PriceLevel (fun a b => a.price ≤ b.price) :=
  ⟨fun _ _ _ hab hbc => le_trans hab hbc⟩

/-- Inverted book built by LimitlessExchange::get_orderbook when the
requested token is a No token: each canonical ask becomes a derived bid at
the inverted price with the same size, each canonical bid becomes a derived
ask, and both derived sides are re-sorted. -/
def limitlessDerivedBook (bids asks : List PriceLevel) :
    List PriceLevel × List PriceLevel :=
  let invertedBids := asks.map fun a => PriceLevel.mk (limitlessInvertPrice a.price) a.size
  let invertedAsks := bids.map fun b => PriceLevel.mk (limitlessInvertPrice b.price) b.size
  (sortBidsDesc invertedBids, sortAsksAsc invertedAsks)

/-- Shared filter of both snapshot handlers: keep only levels with strictly
positive price and size. -/
def filterPositive (levels : List PriceLevel) : List PriceLevel :=
  levels.filter fun l => decide (0 < l.price) && decide (0 < l.size)

/-- LimitlessWebSocket::handle_orderbook_update: parse and filter the raw
levels, then sort bids descending and asks ascending before storing. -/
def limitlessHandleOrderbookUpdate (rawBids rawAsks : List PriceLevel) :
    List PriceLevel × List PriceLevel :=
  (sortBidsDesc (filterPositive rawBids), sortAsksAsc (filterPositive rawAsks))

/-- PolymarketWebSocket::handle_book_message: parse and filter the raw
levels and store them in message order; the handler performs no sort. -/
def polymarketHandleBookMessage (rawBids rawAsks : List PriceLevel) :
    List PriceLevel × List PriceLevel :=
  (filterPositive rawBids, filterPositive rawAsks)

/-- PolymarketWebSocket::handle_price_change, bid side: when the parsed
best-bid price is positive, overwrite the price of the level at index 0
(keeping its size) or create a single level of size 1 if the side was
empty; deeper levels are untouched and nothing is re-sorted. -/
def polymarketApplyBestBid (bids : List PriceLevel) (price : ℚ) : List PriceLevel :=
  if 0 < price then
    match bids with
    | [] => [PriceLevel.mk price 1]
    | b :: rest => PriceLevel.mk price b.size :: rest
  else bids

/-- PolymarketWebSocket::handle_price_change, ask side (same shape as the
bid side). -/
def polymarketApplyBestAsk (asks : List PriceLevel) (price : ℚ) : List PriceLevel :=
  if 0 < price then
    match asks with
    | [] => [PriceLevel.mk price 1]
    | a :: rest => PriceLevel.mk price a.size :: rest
  else asks

/-- Check that adjacent bid prices are non-increasing. -/
def bidsSortedDesc : List PriceLevel → Bool
  | [] => true
  | [_] => true
  | a :: b :: rest => decide (b.price ≤ a.price) && bidsSortedDesc (b :: rest)

/-- Check that adjacent ask prices are non-decreasing. -/
def asksSortedAsc : List PriceLevel → Bool
  | [] => true
  | [_] => true
  | a :: b :: rest => decide (a.price ≤ b.price) && asksSortedAsc (b :: rest)

/-- Check that every level has strictly positive price and size. -/
def allPositive (levels : List PriceLevel) : Bool :=
  levels.all fun l => decide (0 < l.price) && decide (0 < l.size)

lemma bidsSortedDesc_of_sorted :
    ∀ (l : List PriceLevel), List.Sorted (fun a b => b.price ≤ a.price) l →
      bidsSortedDesc l = true
  | [], _ => rfl
  | [_], _ => rfl
  | a :: b :: rest, h => by
      rw [bidsSortedDesc]
      have h1 : b.price ≤ a.price := List.rel_of_sorted_cons h b (by simp)
      have h2 := List.Sorted.of_cons h
      simp [h1, bidsSortedDesc_of_sorted (b :: rest) h2]

lemma asksSortedAsc_of_sorted :
    ∀ (l : List PriceLevel), List.Sorted (fun a b => a.price ≤ b.price) l →
      asksSortedAsc l = true
  | [], _ => rfl
  | [_], _ => rfl
  | a :: b :: rest, h => by
      rw [asksSortedAsc]
      have h1 : a.price ≤ b.price := List.rel_of_sorted_cons h b (by simp)
      have h2 := List.Sorted.of_cons h
      simp [h1, asksSortedAsc_of_sorted (b :: rest) h2]

lemma allPositive_filterPositive (l : List PriceLevel) :
    allPositive (filterPositive l) = true := by
  rw [allPositive, List.all_eq_true]
  intro x hx
  exact (List.mem_filter.mp hx).2

lemma allPositive_sortBidsDesc_filter (l : List PriceLevel) :
    allPositive (sortBidsDesc (filterPositive l)) = true := by
  rw [allPositive, List.all_eq_true]
  intro x hx
  unfold sortBidsDesc at hx
  have hmem : x ∈ filterPositive l :=
    (List.perm_insertionSort (fun a b => b.price ≤ a.price) (filterPositive l)).mem_iff.mp hx
  exact (List.mem_filter.mp hmem).2

lemma allPositive_sortAsksAsc_filter (l : List PriceLevel) :
    allPositive (sortAsksAsc (filterPositive l)) = true := by
  rw [allPositive, List.all_eq_true]
  intro x hx
  unfold sortAsksAsc at hx
  have hmem : x ∈ filterPositive l :=
    (List.perm_insertionSort (fun a b => a.price ≤ b.price) (filterPositive l)).mem_iff.mp hx
  exact (List.mem_filter.mp hmem).2

/-- C2: evaluation of the inverted-book derivation at the specification
example, canonical ask (0.66, 150).  The code yields a derived bid at price
-0.659 where the claim requires 0.34: the sum of derived-bid and
canonical-ask price misses 1 by far more than the 0.001 tick, while the
intended computation modelled from the spec satisfies it.  The source
expression (1.0 - a.price * 1000.0).round() / 1000.0 is missing
parentheses around the subtraction. -/
theorem c2_inversion_failing_input :
    limitlessInvertPrice (66/100 : ℚ) = -(659/1000 : ℚ) ∧
    specInvertPrice (66/100 : ℚ) = 34/100 ∧
    limitlessDerivedBook [] [PriceLevel.mk (66/100) 150]
      = ([PriceLevel.mk (-(659/1000 : ℚ)) 150], []) ∧
    1/1000 < |limitlessInvertPrice (66/100 : ℚ) + 66/100 - 1| ∧
    |specInvertPrice (66/100 : ℚ) + 66/100 - 1| ≤ 1/1000 := by
  have h1 : limitlessInvertPrice (66/100 : ℚ) = -(659/1000 : ℚ) := by
    rw [limitlessInvertPrice, show (1 : ℚ) - (66/100) * 1000 = -659 by norm_num,
      rustRound, if_neg (by norm_num)]
    norm_num
  have h2 : specInvertPrice (66/100 : ℚ) = 34/100 := by
    rw [specInvertPrice, show ((1 : ℚ) - 66/100) * 1000 = 340 by norm_num,
      rustRound, if_pos (by norm_num)]
    norm_num
  refine ⟨h1, h2, ?_, ?_, ?_⟩
  · simp only [limitlessDerivedBook, List.map, sortBidsDesc, sortAsksAsc,
      List.insertionSort, List.orderedInsert, h1]
  · rw [h1]
    rw [show -(659/1000 : ℚ) + 66/100 - 1 = -(999/1000 : ℚ) by norm_num, abs_neg]
    rw [abs_of_pos (by norm_num)]
    norm_num
  · rw [h2]
    norm_num

/-- C3 counterexample: the Polymarket book-snapshot handler stores levels
in message order without sorting (the spec example bids
[(0.64,200),(0.65,100)] stay ascending), and a best-price update can
overwrite the top bid with a price below the second level, leaving the
stored book unsorted. -/
theorem c3_counterexample :
    bidsSortedDesc
      (polymarketHandleBookMessage
        [PriceLevel.mk (64/100) 200, PriceLevel.mk (65/100) 100] []).1 = false ∧
    polymarketApplyBestBid [PriceLevel.mk (1/2) 5, PriceLevel.mk (2/5) 3] (3/10)
      = [PriceLevel.mk (3/10) 5, PriceLevel.mk (2/5) 3] ∧
    bidsSortedDesc
      (polymarketApplyBestBid [PriceLevel.mk (1/2) 5, PriceLevel.mk (2/5) 3] (3/10))
      = false := by
  have happly : polymarketApplyBestBid
      [PriceLevel.mk (1/2) 5, PriceLevel.mk (2/5) 3] (3/10)
      = [PriceLevel.mk (3/10) 5, PriceLevel.mk (2/5) 3] := by
    rw [polymarketApplyBestBid, if_pos (by norm_num)]
  refine ⟨?_, happly, ?_⟩
  · simp only [polymarketHandleBookMessage, filterPositive, List.filter]
    norm_num [bidsSortedDesc]
  · rw [happly]
    simp only [bidsSortedDesc]
    norm_num

/-- C3 (amended): the Limitless snapshot handler establishes the full
invariant (bids non-increasing, asks non-decreasing, all levels strictly
positive); the Polymarket snapshot handler guarantees positivity but keeps
message order, and its best-price update does not restore ordering. -/
theorem c3_snapshot_invariants (rawBids rawAsks : List PriceLevel) :
    bidsSortedDesc (limitlessHandleOrderbookUpdate rawBids rawAsks).1 = true ∧
    asksSortedAsc (limitlessHandleOrderbookUpdate rawBids rawAsks).2 = true ∧
    allPositive (limitlessHandleOrderbookUpdate rawBids rawAsks).1 = true ∧
    allPositive (limitlessHandleOrderbookUpdate rawBids rawAsks).2 = true ∧
    allPositive (polymarketHandleBookMessage rawBids rawAsks).1 = true ∧
    allPositive (polymarketHandleBookMessage rawBids rawAsks).2 = true := by
  refine ⟨?_, ?_, ?_, ?_, ?_, ?_⟩
  · exact bidsSortedDesc_of_sorted _ (List.sorted_insertionSort _ _)
  · exact asksSortedAsc_of_sorted _ (List.sorted_insertionSort _ _)
  · exact allPositive_sortBidsDesc_filter rawBids
  · exact allPositive_sortAsksAsc_filter rawAsks
  · exact allPositive_filterPositive rawBids
  · exact allPositive_filterPositive rawAsks

/-- Witness for c4_digest_structure with a constant 32-byte hash function
and the Limitless domain parameters. -/
theorem c4_digest_structure_witness :
    computeDomainSeparator (fun _ => List.replicate 32 0) "Limitless CTF Exchange" "1"
        8453 0
      = (fun _ => List.replicate 32 0)
          ((fun _ => List.replicate 32 0) (asciiBytes domainTypeString)
            ++ (fun _ => List.replicate 32 0) (asciiBytes "Limitless CTF Exchange")
            ++ (fun _ => List.replicate 32 0) (asciiBytes "1")
            ++ beBytes 32 8453 ++ beBytes 32 0) :=
  (c4_digest_structure (fun _ => List.replicate 32 0)
    (fun _ => by simp) "Limitless CTF Exchange" "1" 8453 0
    ⟨1, 2, 3, 4, 5, 6, 7, 8, 9, 10, 0, 0⟩).2.1

/-! Order lifecycle tracking (drm-core OrderTracker). -/

/-- Order status values (drm-core OrderStatus). -/
inductive OrderStatus where
  | pending : OrderStatus
  | opened : OrderStatus
  | filled : OrderStatus
  | partiallyFilled : OrderStatus
  | cancelled : OrderStatus
  | rejected : OrderStatus
deriving DecidableEq, Repr

/-- Fields of the drm-core Order record that OrderTracker::handle_trade
reads or writes (ids are strings, monetary fields exact rationals). -/
structure Order where
  id : String
  price : ℚ
  size : ℚ
  filled : ℚ
  status : OrderStatus
deriving DecidableEq, Repr

/-- TrackedOrder: order snapshot plus accumulated fill. -/
structure TrackedOrder where
  order : Order
  totalFilled : ℚ
deriving DecidableEq, Repr

/-- Events emitted to tracker callbacks. -/
inductive OrderEvent where
  | created : OrderEvent
  | partialFill : OrderEvent
  | filled : OrderEvent
  | cancelled : OrderEvent
  | rejected : OrderEvent
  | expired : OrderEvent
deriving DecidableEq, Repr

/-- Tracker registry: association list from order id to tracked order. -/
abbrev TrackerState := List (String × TrackedOrder)

/-- Lookup of tracked_orders.get(order_id). -/
def lookupOrder (st : TrackerState) (id : String) : Option TrackedOrder :=
  (st.find? fun p => p.1 == id).map Prod.snd

/-- OrderTracker::untrack_order: remove the id from the registry. -/
def removeOrder (st : TrackerState) (id : String) : TrackerState :=
  st.filter fun p => !(p.1 == id)

/-- In-place mutation of the tracked entry for the id. -/
def updateOrder (st : TrackerState) (id : String) (t : TrackedOrder) : TrackerState :=
  st.map fun p => if p.1 == id then (id, t) else p

/-- OrderTracker::handle_trade: if the id is untracked, do nothing;
otherwise add fill_size to total_filled, mark Filled when total_filled
reaches the order size (PartiallyFilled otherwise), rebuild the order
snapshot with price set to the fill price and filled set to the running
total, emit the event with the snapshot and fill size, and untrack the
order after a Filled event.  The returned pair is the new registry and the
emitted callback payload. -/
def handleTrade (st : TrackerState) (id : String) (fillSize fillPrice : ℚ) :
    TrackerState × Option (OrderEvent × Order × ℚ) :=
  match lookupOrder st id with
  | none => (st, none)
  | some t =>
      let total := t.totalFilled + fillSize
      if t.order.size ≤ total then
        let updated := Order.mk t.order.id fillPrice t.order.size total OrderStatus.filled
        (removeOrder (updateOrder st id (TrackedOrder.mk updated total)) id,
         some (OrderEvent.filled, updated, fillSize))
      else
        let updated := Order.mk t.order.id fillPrice t.order.size total
          OrderStatus.partiallyFilled
        (updateOrder st id (TrackedOrder.mk updated total),
         some (OrderEvent.partialFill, updated, fillSize))

/-- Sequence of handle_trade calls on one id, accumulating the fill sizes
reported through the emitted events. -/
def runTrades (st : TrackerState) (id : String) (fills : List (ℚ × ℚ)) :
    TrackerState × ℚ :=
  fills.foldl
    (fun acc f =>
      let step := handleTrade acc.1 id f.1 f.2
      (step.1, acc.2 + (match step.2 with
        | some (_, _, fs) => fs
        | none => 0)))
    (st, 0)

lemma lookupOrder_removeOrder (st : TrackerState) (id : String) :
    lookupOrder (removeOrder st id) id = none := by
  rw [lookupOrder, Option.map_eq_none', List.find?_eq_none]
  intro p hp
  have h2 := (List.mem_filter.mp hp).2
  simp only [Bool.not_eq_true'] at h2
  simp [h2]

lemma mem_of_lookupOrder {st : TrackerState} {id : String} {t : TrackedOrder}
    (h : lookupOrder st id = some t) : ∃ k, (k, t) ∈ st := by
  rw [lookupOrder] at h
  cases hfind : st.find? (fun p => p.1 == id) with
  | none => rw [hfind] at h; cases h
  | some p =>
      rw [hfind] at h
      have hmem := List.mem_of_find?_eq_some hfind
      have hpt : p.2 = t := by simpa using h
      refine ⟨p.1, ?_⟩
      rw [← hpt]
      simpa using hmem

/-- C8: when the id is tracked, handle_trade always emits an event whose
order snapshot carries the most recent fill price (and the fill size just
applied), and once the running total reaches the order size the id is
removed from the registry, so it is no longer tracked afterward. -/
theorem c8_latest_fill_price (st : TrackerState) (id : String)
    (fillSize fillPrice : ℚ) (t : TrackedOrder)
    (h : lookupOrder st id = some t) :
    (∀ ev o fs, (handleTrade st id fillSize fillPrice).2 = some (ev, o, fs) →
       o.price = fillPrice ∧ fs = fillSize) ∧
    (handleTrade st id fillSize fillPrice).2 ≠ none ∧
    (t.order.size ≤ t.totalFilled + fillSize →
       lookupOrder (handleTrade st id fillSize fillPrice).1 id = none) := by
  by_cases hc : t.order.size ≤ t.totalFilled + fillSize
  · simp only [handleTrade, h, if_pos hc]
    refine ⟨?_, by simp, fun _ => lookupOrder_removeOrder _ _⟩
    intro ev o fs hev
    rw [Option.some.injEq] at hev
    injection hev with h1 hrest
    injection hrest with h2 h3
    subst h2
    subst h3
    exact ⟨rfl, rfl⟩
  · simp only [handleTrade, h, if_neg hc]
    refine ⟨?_, by simp, fun hcc => absurd hcc hc⟩
    intro ev o fs hev
    rw [Option.some.injEq] at hev
    injection hev with h1 hrest
    injection hrest with h2 h3
    subst h2
    subst h3
    exact ⟨rfl, rfl⟩

/-- Witness for c8_latest_fill_price: a tracked order of size 10 filled by
10 in one trade is removed from the registry. -/
theorem c8_latest_fill_price_witness :
    lookupOrder
      (handleTrade
        [("order-1", TrackedOrder.mk (Order.mk "order-1" (1/2) 10 0 OrderStatus.opened) 0)]
        "order-1" 10 (1/2)).1 "order-1" = none :=
  (c8_latest_fill_price
    [("order-1", TrackedOrder.mk (Order.mk "order-1" (1/2) 10 0 OrderStatus.opened) 0)]
    "order-1" 10 (1/2)
    (TrackedOrder.mk (Order.mk "order-1" (1/2) 10 0 OrderStatus.opened) 0)
    (by simp [lookupOrder, List.find?])).2.2 (by norm_num)

/-- C7 (amended): assuming every tracked entry has accumulated strictly
less than its order size, a handle_trade step emits PartialFill only while
the running total is still below the size, emits Filled with a total that
reaches the size but overshoots it by less than the final fill amount, and
preserves the entry bound for every order left in the registry; the
cumulative reported amount is therefore bounded by size plus the final
fill, not by size itself. -/
theorem c7_fill_accounting (st : TrackerState) (id : String)
    (fillSize fillPrice : ℚ)
    (hwf : ∀ p ∈ st, (p.2).totalFilled < (p.2).order.size) :
    (∀ ev o fs, (handleTrade st id fillSize fillPrice).2 = some (ev, o, fs) →
      (ev = OrderEvent.partialFill → o.filled < o.size) ∧
      (ev = OrderEvent.filled → o.size ≤ o.filled ∧ o.filled < o.size + fs)) ∧
    (∀ p ∈ (handleTrade st id fillSize fillPrice).1,
      (p.2).totalFilled < (p.2).order.size) := by
  cases hl : lookupOrder st id with
  | none =>
      simp only [handleTrade, hl]
      refine ⟨fun ev o fs hev => ?_, hwf⟩
      cases hev
  | some t =>
      obtain ⟨k, hkmem⟩ := mem_of_lookupOrder hl
      have ht := hwf _ hkmem
      by_cases hc : t.order.size ≤ t.totalFilled + fillSize
      · constructor
        · intro ev o fs hev
          simp only [handleTrade, hl, if_pos hc, Option.some.injEq] at hev
          injection hev with h1 hrest
          injection hrest with h2 h3
          subst h2
          subst h3
          refine ⟨fun hpe => ?_, fun _ => ⟨hc, ?_⟩⟩
          · rw [← h1] at hpe
            cases hpe
          · simpa using (by linarith :
              t.totalFilled + fillSize < t.order.size + fillSize)
        · intro p hp
          simp only [handleTrade, hl, if_pos hc] at hp
          have hp2 := List.mem_filter.mp hp
          obtain ⟨q, hq, hqe⟩ := List.mem_map.mp hp2.1
          by_cases hqid : (q.1 == id) = true
          · rw [if_pos hqid] at hqe
            rw [← hqe] at hp2
            simp at hp2
          · rw [if_neg hqid] at hqe
            rw [← hqe]
            exact hwf q hq
      · constructor
        · intro ev o fs hev
          simp only [handleTrade, hl, if_neg hc, Option.some.injEq] at hev
          injection hev with h1 hrest
          injection hrest with h2 h3
          subst h2
          subst h3
          refine ⟨fun _ => ?_, fun hfe => ?_⟩
          · simpa using (by linarith [lt_of_not_le hc] :
              t.totalFilled + fillSize < t.order.size)
          · rw [← h1] at hfe
            cases hfe
        · intro p hp
          simp only [handleTrade, hl, if_neg hc] at hp
          obtain ⟨q, hq, hqe⟩ := List.mem_map.mp hp
          by_cases hqid : (q.1 == id) = true
          · rw [if_pos hqid] at hqe
            rw [← hqe]
            simpa using lt_of_not_le hc
          · rw [if_neg hqid] at hqe
            rw [← hqe]
            exact hwf q hq

/-- Witness for c7_fill_accounting: a partial fill of 6 on a tracked order
of size 10 emits a snapshot with filled 6 strictly below size 10. -/
theorem c7_fill_accounting_witness :
    (Order.mk "order-1" (1/2) 10 6 OrderStatus.partiallyFilled).filled
      < (Order.mk "order-1" (1/2) 10 6 OrderStatus.partiallyFilled).size :=
  ((c7_fill_accounting
      [("order-1", TrackedOrder.mk (Order.mk "order-1" (1/2) 10 0 OrderStatus.opened) 0)]
      "order-1" 6 (1/2)
      (by
        intro p hp
        simp only [List.mem_singleton] at hp
        subst hp
        norm_num)).1
    OrderEvent.partialFill
    (Order.mk "order-1" (1/2) 10 6 OrderStatus.partiallyFilled) 6
    (by norm_num [handleTrade, lookupOrder, List.find?])).1 rfl

/-- C7 counterexample: an order of size 10 receiving two fills of 6 has
cumulative reported fill 6 + 6 = 12, exceeding the order size before the
terminal Filled transition removes it; nothing caps total_filled at
order.size. -/
theorem c7_counterexample :
    (runTrades
      [("order-1", TrackedOrder.mk (Order.mk "order-1" (1/2) 10 0 OrderStatus.opened) 0)]
      "order-1" [(6, 1/2), (6, 1/2)]).2 = 12 ∧
    (10 : ℚ) <
      (runTrades
        [("order-1", TrackedOrder.mk (Order.mk "order-1" (1/2) 10 0 OrderStatus.opened) 0)]
        "order-1" [(6, 1/2), (6, 1/2)]).2 ∧
    (runTrades
      [("order-1", TrackedOrder.mk (Order.mk "order-1" (1/2) 10 0 OrderStatus.opened) 0)]
      "order-1" [(6, 1/2), (6, 1/2)]).1 = [] := by
  have heval : runTrades
      [("order-1", TrackedOrder.mk (Order.mk "order-1" (1/2) 10 0 OrderStatus.opened) 0)]
      "order-1" [(6, 1/2), (6, 1/2)] = ([], 12) := by
    norm_num [runTrades, List.foldl, handleTrade, lookupOrder, updateOrder,
      removeOrder, List.find?, List.filter]
  rw [heval]
  norm_num

/-! Stream connection lifecycle (PolymarketWebSocket).  The spawned session
task, its reconnect loop and the user-facing disconnect() are modelled as a
labelled interleaving of small steps over an explicit configuration; each
step mirrors one atomic section of the Rust code (one lock acquisition or
one await point). -/

/-- Connection states (drm-core WebSocketState). -/
inductive WsState where
  | disconnected : WsState
  | connecting : WsState
  | connected : WsState
  | reconnecting : WsState
  | closed : WsState
deriving DecidableEq, Repr

/-- Control points of the spawned session task in
PolymarketWebSocket::connect: the initial shutdown-aware session select,
the post-session state check, the reconnect while-loop head, the
connect_async call, the reconnected session (whose select has no shutdown
branch) and its own closed check, and task exit. -/
inductive TaskPc where
  | session : TaskPc
  | checkState : TaskPc
  | loopIter (attempt : ℕ) : TaskPc
  | connectTry (attempt : ℕ) : TaskPc
  | sessionN (attempt : ℕ) : TaskPc
  | checkStateN (attempt : ℕ) : TaskPc
  | taskDone : TaskPc
deriving DecidableEq, Repr

/-- Shared connection state plus the session-task control point, with a
history flag recording whether disconnect() has been called. -/
structure WsConfig where
  st : WsState
  pc : TaskPc
  discCalled : Bool
deriving DecidableEq, Repr

/-- MAX_RECONNECT_ATTEMPTS in the Polymarket web socket. -/
def maxReconnectAttempts : ℕ := 10

/-- Interleaved steps of the user call disconnect() and the session task
with auto_reconnect enabled.  disconnect sets the shared state to Closed at
any time; the task, when its session ends, re-reads the state under the
lock: Closed makes it return, anything else becomes Disconnected and the
reconnect loop starts with attempt 1.  Each loop iteration first writes
Reconnecting, then tries to connect; failure increments the attempt,
success writes Connected, resets the attempt counter and runs a new
session, after which only a Closed state stops the loop (the new select has
no shutdown branch).  Exhausting the attempts writes Disconnected and
stops. -/
inductive WsStep : WsConfig → WsConfig → Prop where
  | disconnect (c : WsConfig) :
      WsStep c (WsConfig.mk WsState.closed c.pc true)
  | wake (st : WsState) (d : Bool) :
      WsStep (WsConfig.mk st TaskPc.session d) (WsConfig.mk st TaskPc.checkState d)
  | guardClosed (d : Bool) :
      WsStep (WsConfig.mk WsState.closed TaskPc.checkState d)
        (WsConfig.mk WsState.closed TaskPc.taskDone d)
  | guardOpen (st : WsState) (d : Bool) (h : st ≠ WsState.closed) :
      WsStep (WsConfig.mk st TaskPc.checkState d)
        (WsConfig.mk WsState.disconnected (TaskPc.loopIter 1) d)
  | loopEnter (st : WsState) (d : Bool) (a : ℕ) (h : a ≤ maxReconnectAttempts) :
      WsStep (WsConfig.mk st (TaskPc.loopIter a) d)
        (WsConfig.mk WsState.reconnecting (TaskPc.connectTry a) d)
  | loopExhausted (st : WsState) (d : Bool) (a : ℕ) (h : maxReconnectAttempts < a) :
      WsStep (WsConfig.mk st (TaskPc.loopIter a) d)
        (WsConfig.mk WsState.disconnected TaskPc.taskDone d)
  | connectOk (st : WsState) (d : Bool) (a : ℕ) :
      WsStep (WsConfig.mk st (TaskPc.connectTry a) d)
        (WsConfig.mk WsState.connected (TaskPc.sessionN a) d)
  | connectErr (st : WsState) (d : Bool) (a : ℕ) :
      WsStep (WsConfig.mk st (TaskPc.connectTry a) d)
        (WsConfig.mk st (TaskPc.loopIter (a + 1)) d)
  | wakeN (st : WsState) (d : Bool) (a : ℕ) :
      WsStep (WsConfig.mk st (TaskPc.sessionN a) d)
        (WsConfig.mk st (TaskPc.checkStateN a) d)
  | guardClosedN (d : Bool) (a : ℕ) :
      WsStep (WsConfig.mk WsState.closed (TaskPc.checkStateN a) d)
        (WsConfig.mk WsState.closed TaskPc.taskDone d)
  | guardOpenN (st : WsState) (d : Bool) (a : ℕ) (h : st ≠ WsState.closed) :
      WsStep (WsConfig.mk st (TaskPc.checkStateN a) d)
        (WsConfig.mk st (TaskPc.loopIter 1) d)

/-- Configurations in which disconnect() has already moved the state to
Closed while the session task has not yet passed its closed check. -/
def wsClosedBeforeCheck (c : WsConfig) : Prop :=
  c.st = WsState.closed ∧
    (c.pc = TaskPc.session ∨ c.pc = TaskPc.checkState ∨ c.pc = TaskPc.taskDone)

lemma wsClosedBeforeCheck_step {b b' : WsConfig}
    (h : wsClosedBeforeCheck b) (hs : WsStep b b') : wsClosedBeforeCheck b' := by
  rcases h with ⟨h1, h2 | h2 | h2⟩ <;> cases hs <;> simp_all [wsClosedBeforeCheck]

/-- C9 counterexample: starting from a connected session with no disconnect
yet, the transport error can be processed first (passing the closed check
and entering the reconnect loop); a disconnect() arriving at the loop head
is then overwritten - the loop performs a reconnect attempt, the state
leaves Closed for Reconnecting and the connection even returns to
Connected. -/
theorem c9_counterexample :
    Relation.ReflTransGen WsStep
      (WsConfig.mk WsState.connected TaskPc.session false)
      (WsConfig.mk WsState.connected (TaskPc.sessionN 1) true) ∧
    WsStep (WsConfig.mk WsState.closed (TaskPc.loopIter 1) true)
      (WsConfig.mk WsState.reconnecting (TaskPc.connectTry 1) true) := by
  constructor
  · refine Relation.ReflTransGen.head (WsStep.wake _ _) ?_
    refine Relation.ReflTransGen.head (WsStep.guardOpen _ _ (by simp)) ?_
    refine Relation.ReflTransGen.head
      (WsStep.disconnect (WsConfig.mk WsState.disconnected (TaskPc.loopIter 1) false)) ?_
    refine Relation.ReflTransGen.head
      (WsStep.loopEnter _ _ _ (by norm_num [maxReconnectAttempts])) ?_
    exact Relation.ReflTransGen.single (WsStep.connectOk _ _ _)
  · exact WsStep.loopEnter _ _ _ (by norm_num [maxReconnectAttempts])

/-- C9 (amended): when disconnect() moves the state to Closed before the
session task reaches its closed check, the task can only pass through the
check and terminate: along every subsequent interleaving the state stays
Closed and no reconnect attempt (connectTry control point) is ever
reached. -/
theorem c9_disconnect_suppresses_reconnect (c c' : WsConfig)
    (h : wsClosedBeforeCheck c)
    (hsteps : Relation.ReflTransGen WsStep c c') :
    c'.st = WsState.closed ∧ ∀ a, c'.pc ≠ TaskPc.connectTry a := by
  have hsafe : wsClosedBeforeCheck c' := by
    induction hsteps with
    | refl => exact h
    | tail _ hstep ih => exact wsClosedBeforeCheck_step ih hstep
  refine ⟨hsafe.1, ?_⟩
  intro a hpc
  rcases hsafe.2 with h2 | h2 | h2 <;> rw [hpc] at h2 <;> cases h2

/-- Witness for c9_disconnect_suppresses_reconnect: from the closed state
at the check point, one guardClosed step reaches task exit with the state
still Closed. -/
theorem c9_disconnect_suppresses_reconnect_witness :
    (WsConfig.mk WsState.closed TaskPc.taskDone true).st = WsState.closed :=
  (c9_disconnect_suppresses_reconnect
    (WsConfig.mk WsState.closed TaskPc.checkState true)
    (WsConfig.mk WsState.closed TaskPc.taskDone true)
    ⟨rfl, Or.inr (Or.inl rfl)⟩
    (Relation.ReflTransGen.single (WsStep.guardClosed true))).1

/-! Bounded retry helper (drm-core retry_with_backoff). -/

/-- Loop body of retry_with_backoff from a given attempt index with a given
number of remaining iterations: the operation is modelled by the sequence
of results it would produce on successive invocations; the result pairs the
returned value with the number of invocations performed, and none models
the unreachable!() panic reached when the for-loop body never runs. -/
def retryFrom {E T : Type} (trace : ℕ → Except E T) (attempt : ℕ) :
    ℕ → Option (Except E T) × ℕ
  | 0 => (none, 0)
  | remaining + 1 =>
      match trace attempt with
      | Except.ok v => (some (Except.ok v), 1)
      | Except.error e =>
          if remaining = 0 then (some (Except.error e), 1)
          else ((retryFrom trace (attempt + 1) remaining).1,
                (retryFrom trace (attempt + 1) remaining).2 + 1)

/-- retry_with_backoff(max_attempts, initial_delay, f): iterate attempt =
0 .. max_attempts - 1, returning the first Ok immediately, sleeping and
retrying on Err while attempts remain, returning the last Err otherwise;
with max_attempts = 0 the loop body never runs and control falls through to
unreachable!(). -/
def retryWithBackoff {E T : Type} (maxAttempts : ℕ)
    (trace : ℕ → Except E T) : Option (Except E T) × ℕ :=
  retryFrom trace 0 maxAttempts

lemma retryFrom_succ_ok {E T : Type} {trace : ℕ → Except E T} {attempt r : ℕ}
    {v : T} (hok : trace attempt = Except.ok v) :
    retryFrom trace attempt (r + 1) = (some (Except.ok v), 1) := by
  rw [retryFrom, hok]

lemma retryFrom_succ_err {E T : Type} {trace : ℕ → Except E T} {attempt r : ℕ}
    {e : E} (he : trace attempt = Except.error e) :
    retryFrom trace attempt (r + 1)
      = if r = 0 then (some (Except.error e), 1)
        else ((retryFrom trace (attempt + 1) r).1,
              (retryFrom trace (attempt + 1) r).2 + 1) := by
  rw [retryFrom, he]

lemma retryFrom_ok {E T : Type} (trace : ℕ → Except E T) :
    ∀ (remaining attempt i : ℕ) (v : T), i < remaining →
      trace (attempt + i) = Except.ok v →
      (∀ j, j < i → ∃ e, trace (attempt + j) = Except.error e) →
      retryFrom trace attempt remaining = (some (Except.ok v), i + 1) := by
  intro remaining
  induction remaining with
  | zero => intro attempt i v hi; omega
  | succ r ih =>
      intro attempt i v hi hok herr
      cases i with
      | zero =>
          simp only [Nat.add_zero] at hok
          exact retryFrom_succ_ok hok
      | succ i2 =>
          obtain ⟨e, he⟩ := herr 0 (Nat.succ_pos _)
          simp only [Nat.add_zero] at he
          rw [retryFrom_succ_err he, if_neg (by omega : ¬ r = 0)]
          have hrec := ih (attempt + 1) i2 v (by omega)
            (by rw [show attempt + 1 + i2 = attempt + (i2 + 1) by omega]; exact hok)
            (by
              intro j hj
              obtain ⟨e2, he2⟩ := herr (j + 1) (by omega)
              exact ⟨e2, by rw [show attempt + 1 + j = attempt + (j + 1) by omega]; exact he2⟩)
          rw [hrec]

lemma retryFrom_allErr {E T : Type} (trace : ℕ → Except E T) :
    ∀ (remaining attempt : ℕ) (e : E), 1 ≤ remaining →
      (∀ j, j < remaining → ∃ e2, trace (attempt + j) = Except.error e2) →
      trace (attempt + (remaining - 1)) = Except.error e →
      retryFrom trace attempt remaining = (some (Except.error e), remaining) := by
  intro remaining
  induction remaining with
  | zero => intro attempt e h1; omega
  | succ r ih =>
      intro attempt e _ herr hlast
      cases Nat.eq_zero_or_pos r with
      | inl hr0 =>
          subst hr0
          rw [show attempt + (0 + 1 - 1) = attempt by omega] at hlast
          rw [retryFrom_succ_err hlast, if_pos rfl]
      | inr hrpos =>
          obtain ⟨e0, he0⟩ := herr 0 (Nat.succ_pos _)
          simp only [Nat.add_zero] at he0
          rw [retryFrom_succ_err he0, if_neg (by omega : ¬ r = 0)]
          have hrec := ih (attempt + 1) e hrpos
            (by
              intro j hj
              obtain ⟨e2, he2⟩ := herr (j + 1) (by omega)
              exact ⟨e2, by rw [show attempt + 1 + j = attempt + (j + 1) by omega]; exact he2⟩)
            (by
              rw [show attempt + 1 + (r - 1) = attempt + (r + 1 - 1) by omega]
              exact hlast)
          rw [hrec]

/-- C10: retry_with_backoff panics (reaches unreachable) with zero
invocations when max_attempts = 0; for max_attempts at least 1 it returns
the first success after exactly i + 1 invocations when attempt i is the
first to succeed within the budget, and returns the last error after
exactly max_attempts invocations when every attempt fails. -/
theorem c10_retry_totality {E T : Type} (maxAttempts : ℕ)
    (trace : ℕ → Except E T) :
    (maxAttempts = 0 → retryWithBackoff maxAttempts trace = (none, 0)) ∧
    (∀ i v, i < maxAttempts → trace i = Except.ok v →
      (∀ j, j < i → ∃ e, trace j = Except.error e) →
      retryWithBackoff maxAttempts trace = (some (Except.ok v), i + 1)) ∧
    (∀ e, 1 ≤ maxAttempts →
      (∀ j, j < maxAttempts → ∃ e2, trace j = Except.error e2) →
      trace (maxAttempts - 1) = Except.error e →
      retryWithBackoff maxAttempts trace = (some (Except.error e), maxAttempts)) := by
  refine ⟨?_, ?_, ?_⟩
  · intro h0
    subst h0
    rfl
  · intro i v hi hok herr
    rw [retryWithBackoff]
    have := retryFrom_ok trace maxAttempts 0 i v hi
      (by simpa using hok) (by simpa using herr)
    simpa using this
  · intro e h1 herr hlast
    rw [retryWithBackoff]
    have := retryFrom_allErr trace maxAttempts 0 e h1
      (by simpa using herr) (by simpa using hlast)
    simpa using this

/-- Witness for c10_retry_totality: an operation failing twice and then
succeeding, run with a budget of 3 attempts, returns the success after
exactly 3 invocations. -/
theorem c10_retry_totality_witness :
    retryWithBackoff 3 (fun i => if i < 2 then Except.error 7 else Except.ok 5)
      = (some (Except.ok 5), 3) :=
  (c10_retry_totality 3 (fun i => if i < 2 then Except.error 7 else Except.ok 5)).2.1
    2 5 (by norm_num) (by norm_num)
    (fun j hj => ⟨7, by simp [hj]⟩)
